import Mathlib

set_option linter.unusedVariables false

/-! Verification development for the r.viewshed.points tutorial notebook.

The notebook teaches how to turn a geoprocessing script into a module: it
declares a command-line interface (module metadata, options, flags) that is
consumed by the external platform parser, and it shows a temporary-map
cleanup pattern (a global TMP_MAPS list, a cleanup function, and an
exit-time finalizer registration) together with a complete module whose
main loop computes per-point viewshed statistics.

The parser implementation itself belongs to the external platform and is
not among the repository sources; it is modelled here from the written
specification of the declaration-and-parsing contract.  The scripts of the
notebook (the temporary-raster example and the complete module main loop)
are embedded from the source. -/

deriving instance DecidableEq for Except

/-- Modelled from the spec: the supported option value types.  The spec
names text, integer and floating point; the notebook writes the floating
point type as double.  The parser implementation is external platform code
missing from the repository sources. -/
inductive OptType where
  | text
  | integer
  | double
deriving DecidableEq

/-- Modelled from the spec: a single type-coerced option value. -/
inductive Scalar where
  | str (s : String)
  | int (i : Int)
  | dbl (q : Rat)
deriving DecidableEq

/-- Modelled from the spec: a resolved option value is a scalar, or a list
of scalars when the option permits multiple values. -/
inductive Value where
  | single (v : Scalar)
  | many (vs : List Scalar)
deriving DecidableEq

/-- Modelled from the spec: an option declaration with key, type, required
and multiple markers, an optional default answer, and a description. -/
structure OptionDecl where
  key : String
  type : OptType
  required : Bool
  multiple : Bool
  answer : Option String
  description : String
deriving DecidableEq

/-- Modelled from the spec: a single-character boolean flag declaration. -/
structure FlagDecl where
  key : Char
  description : String
deriving DecidableEq

/-- Modelled from the spec: module metadata used for help-text generation. -/
structure ModuleDecl where
  description : String
  keywords : List String
deriving DecidableEq

/-- Modelled from the spec: the interface descriptor consumed by the
argument resolution, holding the module, option and flag declarations. -/
structure Declarations where
  module : ModuleDecl
  options : List OptionDecl
  flags : List FlagDecl
deriving DecidableEq

/-- Modelled from the spec: the validated result of parsing the process
arguments, a mapping from option key to value, a mapping from flag key to
a boolean, and the implicit overwrite flag. -/
structure Resolved where
  optionValues : List (String × Value)
  flagValues : List (Char × Bool)
  overwrite : Bool
deriving DecidableEq

/-- Modelled from the spec: the error taxonomy of the component. -/
inductive ParseError where
  | ConfigurationError (msg : String)
  | UnknownOptionError (key : String)
  | UnknownFlagError (key : Char)
  | MissingRequiredOptionError (key : String)
  | DuplicateOptionError (key : String)
  | TypeCoercionError (key : String) (literal : String)
deriving DecidableEq

/-- Modelled from the spec: the terminal parse outcomes, either the help
document was produced or the resolved arguments are returned. -/
inductive ParseOutcome where
  | help (doc : String)
  | done (r : Resolved)
deriving DecidableEq

/-- Splits a character list at the first occurrence of the separator,
returning the parts before and after it when the separator occurs. -/
def splitAtChar (sep : Char) : List Char → Option (List Char × List Char)
  | [] => none
  | c :: rest =>
    if c = sep then some ([], rest)
    else (splitAtChar sep rest).map (fun p => (c :: p.1, p.2))

/-- Value of a decimal digit character, when the character is a digit. -/
def digitVal (c : Char) : Option Nat :=
  if '0' ≤ c ∧ c ≤ '9' then some (c.toNat - '0'.toNat) else none

/-- Accumulating evaluation of a digit string. -/
def digitsValGo (acc : Nat) : List Char → Option Nat
  | [] => some acc
  | c :: cs =>
    match digitVal c with
    | some d => digitsValGo (acc * 10 + d) cs
    | none => none

/-- Numeric value of a nonempty string of decimal digits. -/
def digitsVal (cs : List Char) : Option Nat :=
  match cs with
  | [] => none
  | _ => digitsValGo 0 cs

/-- Modelled from the spec: coercion of a literal to an integer, accepting
an optional leading minus sign followed by decimal digits. -/
def parseIntLit (s : String) : Option Int :=
  match s.toList with
  | '-' :: rest => (digitsVal rest).map (fun n => -(n : Int))
  | cs => (digitsVal cs).map (fun n => (n : Int))

/-- Unsigned part of a decimal literal: digits with an optional fractional
part after a dot. -/
def parseUnsignedDec (cs : List Char) : Option Rat :=
  match splitAtChar '.' cs with
  | none => (digitsVal cs).map (fun n => (n : Rat))
  | some p =>
    match digitsVal p.1, digitsVal p.2 with
    | some i, some f => some ((i : Rat) + (f : Rat) / ((10 : Rat) ^ p.2.length))
    | _, _ => none

/-- Modelled from the spec: coercion of a literal to the floating point
type, modelled exactly over the rationals for plain decimal literals with
an optional leading minus sign. -/
def parseDecLit (s : String) : Option Rat :=
  match s.toList with
  | '-' :: rest => (parseUnsignedDec rest).map (fun q => -q)
  | cs => parseUnsignedDec cs

/-- Modelled from the spec: coerce a resolved literal to its declared
type; the result is none exactly when the coercion fails. -/
def coerceValue : OptType → String → Option Scalar
  | OptType.text, s => some (Scalar.str s)
  | OptType.integer, s => (parseIntLit s).map Scalar.int
  | OptType.double, s => (parseDecLit s).map Scalar.dbl

/-- Modelled from the spec: intermediate scan state, recording supplied
key and literal pairs in order, the flag characters set so far, and the
implicit overwrite flag. -/
structure ScanState where
  supplied : List (String × String)
  flagsOn : List Char
  overwrite : Bool
deriving DecidableEq

/-- The key and literal supplied by one token, when the token has the
key=value shape; the reserved overwrite token supplies nothing. -/
def tokenSupply (tok : String) : Option (String × String) :=
  if tok = "--overwrite" then none
  else (splitAtChar '=' tok.toList).map (fun p => (String.mk p.1, String.mk p.2))

/-- Whether a token supplies a value for the given option key. -/
def suppliesKey (tok : String) (key : String) : Bool :=
  match tokenSupply tok with
  | some p => decide (p.1 = key)
  | none => false

/-- All literals supplied for a key by an argument list, in order. -/
def suppliedLits (key : String) (argv : List String) : List String :=
  argv.filterMap (fun tok =>
    match tokenSupply tok with
    | some p => if p.1 = key then some p.2 else none
    | none => none)

/-- Whether a token mentions the given character as a flag: the token has
the dash-prefixed flag shape and contains the character after the dash. -/
def flagMentioned (tok : String) (c : Char) : Bool :=
  if tok = "--overwrite" then false
  else
    match splitAtChar '=' tok.toList with
    | some _ => false
    | none =>
      match tok.toList with
      | '-' :: cs => decide (c ∈ cs)
      | _ => false

/-- Modelled from the spec: set each character of a flag token; an
undeclared character fails with UnknownFlagError. -/
def setFlags (decls : Declarations) (st : ScanState) :
    List Char → Except ParseError ScanState
  | [] => Except.ok st
  | c :: cs =>
    if decls.flags.any (fun f => decide (f.key = c)) then
      setFlags decls { st with flagsOn := c :: st.flagsOn } cs
    else
      Except.error (ParseError.UnknownFlagError c)

/-- Modelled from the spec: scan one token.  The reserved overwrite token
sets the implicit overwrite flag; a key=value token must name a declared
option, otherwise UnknownOptionError; a dash-prefixed token sets flags;
any other token shape is reported as an unknown option. -/
def scanToken (decls : Declarations) (st : ScanState) (tok : String) :
    Except ParseError ScanState :=
  if tok = "--overwrite" then Except.ok { st with overwrite := true }
  else
    match splitAtChar '=' tok.toList with
    | some p =>
      if decls.options.any (fun o => decide (o.key = String.mk p.1)) then
        Except.ok { st with supplied := st.supplied ++ [(String.mk p.1, String.mk p.2)] }
      else
        Except.error (ParseError.UnknownOptionError (String.mk p.1))
    | none =>
      match tok.toList with
      | '-' :: cs => setFlags decls st cs
      | _ => Except.error (ParseError.UnknownOptionError tok)

/-- Modelled from the spec: scan every token in order, stopping at the
first violation. -/
def scanArgs (decls : Declarations) (st : ScanState) :
    List String → Except ParseError ScanState
  | [] => Except.ok st
  | tok :: rest =>
    match scanToken decls st tok with
    | Except.ok st2 => scanArgs decls st2 rest
    | Except.error e => Except.error e

/-- Modelled from the spec: scan an argument list from the empty state. -/
def scan (decls : Declarations) (argv : List String) : Except ParseError ScanState :=
  scanArgs decls { supplied := [], flagsOn := [], overwrite := false } argv

/-- Literals supplied for the given option key in the scanned state. -/
def suppliedFor (st : ScanState) (key : String) : List String :=
  st.supplied.filterMap (fun p => if p.1 = key then some p.2 else none)

/-- Modelled from the spec: the first declared option, in declaration
order, that was not supplied, has no default answer and is required. -/
def firstMissingRequired (decls : Declarations) (st : ScanState) : Option String :=
  (decls.options.find? (fun o =>
    (suppliedFor st o.key).isEmpty && o.answer.isNone && o.required)).map
    (fun o => o.key)

/-- Modelled from the spec: the first declared option, in declaration
order, that does not permit multiple values but was supplied twice. -/
def firstDuplicate (decls : Declarations) (st : ScanState) : Option String :=
  (decls.options.find? (fun o =>
    !o.multiple && decide (2 ≤ (suppliedFor st o.key).length))).map
    (fun o => o.key)

/-- Coerce a list of literals, failing with TypeCoercionError naming the
option key and the first offending literal. -/
def coerceList (key : String) (t : OptType) :
    List String → Except ParseError (List Scalar)
  | [] => Except.ok []
  | l :: rest =>
    match coerceValue t l with
    | some v =>
      match coerceList key t rest with
      | Except.ok vs => Except.ok (v :: vs)
      | Except.error e => Except.error e
    | none => Except.error (ParseError.TypeCoercionError key l)

/-- Splits a character list on a separator into the groups between the
separator occurrences, keeping empty groups. -/
def splitCharsOn (sep : Char) : List Char → List (List Char)
  | [] => [[]]
  | c :: rest =>
    if c = sep then [] :: splitCharsOn sep rest
    else
      match splitCharsOn sep rest with
      | [] => [[c]]
      | g :: gs => (c :: g) :: gs

/-- Splits a comma-joined multi-value literal into its parts. -/
def splitOnComma (s : String) : List String :=
  (splitCharsOn ',' s.toList).map String.mk

/-- Modelled from the spec: resolve one option.  An unsupplied option
takes its coerced default answer when one is declared and is otherwise
left without a value; a supplied option is coerced to its declared type,
comma-splitting the literals when multiple values are permitted.  A failed
coercion yields TypeCoercionError naming the key and the literal. -/
def resolveOption (st : ScanState) (o : OptionDecl) :
    Except ParseError (Option Value) :=
  match suppliedFor st o.key with
  | [] =>
    match o.answer with
    | none => Except.ok none
    | some d =>
      match coerceValue o.type d with
      | some v => Except.ok (some (Value.single v))
      | none => Except.error (ParseError.TypeCoercionError o.key d)
  | lit :: rest =>
    if o.multiple then
      match coerceList o.key o.type (((lit :: rest).map splitOnComma).flatten) with
      | Except.ok vs => Except.ok (some (Value.many vs))
      | Except.error e => Except.error e
    else
      match coerceValue o.type lit with
      | some v => Except.ok (some (Value.single v))
      | none => Except.error (ParseError.TypeCoercionError o.key lit)

/-- Modelled from the spec: resolve every declared option in declaration
order, collecting the resolved key and value pairs. -/
def resolveAll (st : ScanState) :
    List OptionDecl → Except ParseError (List (String × Value))
  | [] => Except.ok []
  | o :: rest =>
    match resolveOption st o with
    | Except.error e => Except.error e
    | Except.ok v? =>
      match resolveAll st rest with
      | Except.error e => Except.error e
      | Except.ok tail =>
        Except.ok (match v? with
          | some v => (o.key, v) :: tail
          | none => tail)

/-- The literals the resolution coerces for one option, mirroring
resolveOption: the comma-split parts of the supplied literals when
multiple values are permitted, the first supplied literal otherwise, and
the default answer when the option is unsupplied. -/
def coercedLits (st : ScanState) (o : OptionDecl) : List String :=
  match suppliedFor st o.key with
  | [] =>
    match o.answer with
    | none => []
    | some d => [d]
  | lit :: rest =>
    if o.multiple then ((lit :: rest).map splitOnComma).flatten
    else [lit]

/-- Modelled from the spec: the resolved flag mapping, every declared flag
paired with whether its character was set during the scan. -/
def resolveFlags (decls : Declarations) (st : ScanState) : List (Char × Bool) :=
  decls.flags.map (fun f => (f.key, decide (f.key ∈ st.flagsOn)))

/-- Display name of an option type in the usage document. -/
def optTypeName : OptType → String
  | OptType.text => "text"
  | OptType.integer => "integer"
  | OptType.double => "double"

/-- Usage line of one option: key, type, required marker, default answer
and description. -/
def optionUsage (o : OptionDecl) : String :=
  "  " ++ o.key ++ ": type " ++ optTypeName o.type
    ++ (if o.required then ", required" else ", optional")
    ++ (match o.answer with
        | some d => ", default " ++ d
        | none => "")
    ++ "  " ++ o.description

/-- Usage line of one flag: key and description. -/
def flagUsage (f : FlagDecl) : String :=
  "  -" ++ String.mk [f.key] ++ "  " ++ f.description

/-- Modelled from the spec: the usage document derived from the module,
option and flag declarations. -/
def usageDocument (decls : Declarations) : String :=
  "Description: " ++ decls.module.description ++ "\n"
    ++ "Keywords: " ++ String.intercalate "," decls.module.keywords ++ "\n"
    ++ "Options:\n" ++ String.intercalate "\n" (decls.options.map optionUsage) ++ "\n"
    ++ "Flags:\n" ++ String.intercalate "\n" (decls.flags.map flagUsage)

/-- Modelled from the spec: parse the argument list against the
declarations.  A help request yields the usage document as a success
outcome; otherwise the tokens are scanned, missing required options and
duplicated single-value options are rejected, and the remaining values
are coerced and returned as the resolved arguments. -/
def parse (decls : Declarations) (argv : List String) :
    Except ParseError ParseOutcome :=
  if "--help" ∈ argv then
    Except.ok (ParseOutcome.help (usageDocument decls))
  else
    match scan decls argv with
    | Except.error e => Except.error e
    | Except.ok st =>
      match firstMissingRequired decls st with
      | some k => Except.error (ParseError.MissingRequiredOptionError k)
      | none =>
        match firstDuplicate decls st with
        | some k => Except.error (ParseError.DuplicateOptionError k)
        | none =>
          match resolveAll st decls.options with
          | Except.error e => Except.error e
          | Except.ok opts =>
            Except.ok (ParseOutcome.done
              { optionValues := opts
                flagValues := resolveFlags decls st
                overwrite := st.overwrite })

/-- Outcome of one module invocation: the help document was shown with
exit status zero, the parse failed with a nonzero status before the body
could run, or the body ran on the resolved arguments. -/
inductive RunResult (A : Type) where
  | helpShown (doc : String) (exitCode : Nat)
  | parseFailed (e : ParseError) (exitCode : Nat)
  | bodyRan (a : A)
deriving DecidableEq

/-- Modelled from the spec: a module first parses its arguments and only
invokes the program body on a successful parse; a help request exits with
status zero and a parse failure exits with a nonzero status. -/
def runModule {A : Type} (decls : Declarations) (argv : List String)
    (body : Resolved → A) : RunResult A :=
  match parse decls argv with
  | Except.error e => RunResult.parseFailed e 1
  | Except.ok (ParseOutcome.help doc) => RunResult.helpShown doc 0
  | Except.ok (ParseOutcome.done r) => RunResult.bodyRan (body r)

/-- Mapping from a declared type name to the supported type, none when the
name is outside the supported set. -/
def typeOfName (t : String) : Option OptType :=
  if t = "text" then some OptType.text
  else if t = "integer" then some OptType.integer
  else if t = "double" then some OptType.double
  else none

/-- Policy for list-splitting compatibility: every supported type permits
comma-separated multiple values. -/
def splittableType (t : OptType) : Bool := true

/-- Modelled from the spec: register one option declaration.  Fails with
ConfigurationError when the key is already registered, when the type name
is outside the supported set, when the option is marked required while a
default answer is also supplied, or when multiple values are requested
for a type incompatible with list-splitting. -/
def declare_option (decls : Declarations) (key : String) (typeName : String)
    (required : Bool) (multiple : Bool) (answer : Option String)
    (description : String) : Except ParseError Declarations :=
  if decls.options.any (fun o => decide (o.key = key)) then
    Except.error (ParseError.ConfigurationError ("key already registered: " ++ key))
  else
    match typeOfName typeName with
    | none => Except.error (ParseError.ConfigurationError ("unsupported type: " ++ typeName))
    | some t =>
      if required && answer.isSome then
        Except.error (ParseError.ConfigurationError ("required option with default: " ++ key))
      else if multiple && !splittableType t then
        Except.error (ParseError.ConfigurationError ("multiple unsupported for type: " ++ typeName))
      else
        Except.ok { decls with
          options := decls.options ++
            [{ key := key, type := t, required := required, multiple := multiple,
               answer := answer, description := description }] }

/-- The declaration set of the concrete tutorial scenario: a required text
option elevation, an optional double option max_distance with default
answer -1, and the flag c. -/
def scenarioDecls : Declarations :=
  { module := { description := "Compute and analyze viewsheds"
                keywords := ["raster", "viewshed"] }
    options :=
      [{ key := "elevation", type := OptType.text, required := true,
         multiple := false, answer := none,
         description := "Name of input elevation raster map" },
       { key := "max_distance", type := OptType.double, required := false,
         multiple := false, answer := some "-1",
         description := "Maximum visibility radius. By default infinity (-1)" }]
    flags := [{ key := 'c',
                description := "Consider the curvature of the earth (current ellipsoid)" }] }

/-- The max_distance declaration of the scenario. -/
def maxDistanceDecl : OptionDecl :=
  { key := "max_distance", type := OptType.double, required := false,
    multiple := false, answer := some "-1",
    description := "Maximum visibility radius. By default infinity (-1)" }

/-- The elevation declaration of the scenario. -/
def elevationDecl : OptionDecl :=
  { key := "elevation", type := OptType.text, required := true,
    multiple := false, answer := none,
    description := "Name of input elevation raster map" }

/-- Attribute record written for one input point by the complete module:
viewshed area, number of other visible points, and distance to the
closest visible point. -/
structure PointRecord where
  area : Rat
  n_points_visible : Int
  distance_to_closest : Rat
deriving DecidableEq

/-- Observable event of a notebook script run: appending a name to the
global TMP_MAPS list, creating a named map through an external command,
writing an attribute record, removing a list of maps, or raising an
unhandled error. -/
inductive Event where
  | append (name : String)
  | createMap (name : String)
  | writeRecord (rec : PointRecord)
  | removeMaps (names : List String)
  | errorRaised
deriving DecidableEq

/-- State of a notebook script run: the global TMP_MAPS list and the
trace of observable events so far. -/
structure ScriptState where
  tmpMaps : List String
  trace : List Event
deriving DecidableEq

/-- The cleanup function of the notebook scripts: one g.remove call on the
comma-joined contents of TMP_MAPS. -/
def cleanup (s : ScriptState) : ScriptState :=
  { s with trace := s.trace ++ [Event.removeMaps s.tmpMaps] }

/-- The exit hook pattern of the notebook: cleanup is registered before
main runs, and the registered handler executes at interpreter exit both
when main returns normally and when it ends with an unhandled error. -/
def runWithAtexit (body : ScriptState → Except ScriptState ScriptState)
    (s0 : ScriptState) : ScriptState :=
  match body s0 with
  | Except.ok s => cleanup s
  | Except.error s => cleanup s

/-- Temporary raster name of the temporary-map example script, built from
the process id and the loop index. -/
def tmpRasterName (pid i : Nat) : String :=
  "tmp_raster_" ++ toString pid ++ toString i

/-- One loop iteration of the temporary-map example script: the name is
appended to TMP_MAPS and then the map is created by mapcalc. -/
def tmpRasterStep (pid : Nat) (s : ScriptState) (i : Nat) : ScriptState :=
  { tmpMaps := s.tmpMaps ++ [tmpRasterName pid i]
    trace := s.trace ++ [Event.append (tmpRasterName pid i),
                         Event.createMap (tmpRasterName pid i)] }

/-- The five temporary raster names of the example script. -/
def tmpRasterNames (pid : Nat) : List String :=
  (List.range 5).map (tmpRasterName pid)

/-- The main function of the erroring temporary-map example script: five
temporary rasters are created and then a TypeError is raised
intentionally, so main never reaches a direct cleanup call. -/
def tmpRasterMain (pid : Nat) (s : ScriptState) : Except ScriptState ScriptState :=
  let s2 := (List.range 5).foldl (tmpRasterStep pid) s
  Except.error { s2 with trace := s2.trace ++ [Event.errorRaised] }

/-- Stem of the temporary map names of the complete module, built from
the process id. -/
def tmpStem (pid : Nat) : String :=
  "tmp_r_viewshed_points_" ++ toString pid ++ "_"

/-- Temporary viewshed raster name of the complete module. -/
def tmpViewshedName (pid : Nat) : String := tmpStem pid ++ "viewshed"

/-- Temporary viewshed vector name of the complete module. -/
def tmpViewshedVectorName (pid : Nat) : String := tmpStem pid ++ "viewshed_vector"

/-- Temporary visible points map name of the complete module. -/
def tmpVisiblePointsName (pid : Nat) : String := tmpStem pid ++ "points"

/-- Temporary current point map name of the complete module. -/
def tmpCurrentPointName (pid : Nat) : String := tmpStem pid ++ "current_point"

/-- The four temporary map names extended onto TMP_MAPS by the complete
module before its point loop starts. -/
def tmpMapsList (pid : Nat) : List String :=
  [tmpViewshedName pid, tmpViewshedVectorName pid,
   tmpVisiblePointsName pid, tmpCurrentPointName pid]

/-- Results of the external platform commands invoked by the complete
module, abstracted per input point category: the cell count reported by
r.univar, the region resolution, the point count of the v.select spatial
selection, and the distance parsed from the v.distance output. -/
structure Env where
  univarCells : Nat → Nat
  nsres : Rat
  selectCount : Nat → Nat
  vDistance : Nat → Rat

/-- One input point of the vector map iterated by the complete module. -/
structure InputPoint where
  cat : Nat
  x : Rat
  y : Rat
deriving DecidableEq

/-- The attribute record computed for one input point by the complete
module: the area from the r.univar cell count and the squared region
resolution, the visible point count of the spatial selection minus one,
and the v.distance result when at least one other point is visible and
zero otherwise. -/
def pointRecord (env : Env) (pt : InputPoint) : PointRecord :=
  let n : Int := (env.selectCount pt.cat : Int) - 1
  { area := (env.univarCells pt.cat : Rat) * env.nsres * env.nsres
    n_points_visible := n
    distance_to_closest := if 1 ≤ n then env.vDistance pt.cat else 0 }

/-- The events of one iteration of the point loop of the complete module:
the temporary viewshed is computed, the named viewshed raster is written
by mapcalc, the viewshed is vectorized, the visible points are selected,
the observer point is imported only when at least one other point is
visible, and the attribute record is written. -/
def pointEvents (pid : Nat) (basename : String) (env : Env) (pt : InputPoint) :
    List Event :=
  let n : Int := (env.selectCount pt.cat : Int) - 1
  [Event.createMap (tmpViewshedName pid),
   Event.createMap (basename ++ "_" ++ toString pt.cat),
   Event.createMap (tmpViewshedVectorName pid),
   Event.createMap (tmpVisiblePointsName pid)]
    ++ (if 1 ≤ n then [Event.createMap (tmpCurrentPointName pid)] else [])
    ++ [Event.writeRecord (pointRecord env pt)]

/-- State of one run of the complete module body: the TMP_MAPS list, the
event trace, and the attribute records written to the output map. -/
structure ModuleState where
  tmpMaps : List String
  trace : List Event
  records : List PointRecord
deriving DecidableEq

/-- One iteration of the point loop of the complete module. -/
def processPoint (pid : Nat) (basename : String) (env : Env)
    (s : ModuleState) (pt : InputPoint) : ModuleState :=
  { s with trace := s.trace ++ pointEvents pid basename env pt
           records := s.records ++ [pointRecord env pt] }

/-- The body of the complete module after a successful parse: the four
temporary names are extended onto TMP_MAPS first, and then every input
point is processed in order.  The elevation, observer elevation, maximum
distance and curvature arguments parameterize the external commands whose
outputs are abstracted by the environment. -/
def viewshedMain (pid : Nat) (elevation basename : String)
    (observerElev maxDistance : Rat) (useCurvature : Bool) (env : Env)
    (points : List InputPoint) : ModuleState :=
  let s0 : ModuleState :=
    { tmpMaps := tmpMapsList pid
      trace := (tmpMapsList pid).map Event.append
      records := [] }
  points.foldl (processPoint pid basename env) s0

/-- An empty declaration set, used to instantiate general statements. -/
def emptyDecls : Declarations :=
  { module := { description := "", keywords := [] }, options := [], flags := [] }

/-- A declaration set with two flags and no required option, used to
instantiate general statements about flag parsing. -/
def twoFlagDecls : Declarations :=
  { module := { description := "two flags", keywords := ["k1", "k2"] }
    options := []
    flags := [{ key := 'a', description := "first flag" },
              { key := 'b', description := "second flag" }] }

/-- A concrete environment used to instantiate general statements about
the complete module: four cells, unit resolution, a selection containing
only the observer point, and an arbitrary distance result. -/
def wEnv : Env :=
  { univarCells := fun _ => 4
    nsres := 1
    selectCount := fun _ => 1
    vDistance := fun _ => 7 }

/-- A concrete input point used to instantiate general statements. -/
def wPt : InputPoint := { cat := 3, x := 10, y := 20 }

/-- Checker for the temporary-map invariant: walking the trace while
collecting appended names, every creation of a map whose name is among
the given temporary names must find that name already appended. -/
def createsTracked (tmps : List String) : List String → List Event → Bool
  | appended, [] => true
  | appended, Event.append n :: rest => createsTracked tmps (n :: appended) rest
  | appended, Event.createMap n :: rest =>
    decide (n ∈ tmps → n ∈ appended) && createsTracked tmps appended rest
  | appended, _ :: rest => createsTracked tmps appended rest

/-- Names appended to TMP_MAPS by a trace, newest first, starting from the
given already-appended names. -/
def appendedAfter (a : List String) : List Event → List String
  | [] => a
  | Event.append n :: rest => appendedAfter (n :: a) rest
  | _ :: rest => appendedAfter a rest


/-- Successful flag setting leaves the supplied pairs and the overwrite
flag unchanged and makes the set flags exactly the old ones plus the
scanned characters. -/
theorem setFlags_ok (decls : Declarations) :
    ∀ (cs : List Char) (st st2 : ScanState),
      setFlags decls st cs = Except.ok st2 →
      st2.supplied = st.supplied ∧ st2.overwrite = st.overwrite ∧
      ∀ c, c ∈ st2.flagsOn ↔ (c ∈ st.flagsOn ∨ c ∈ cs) := by
  intro cs
  induction cs with
  | nil =>
    intro st st2 h
    simp [setFlags] at h
    subst h
    simp
  | cons c cs ih =>
    intro st st2 h
    simp only [setFlags] at h
    split at h
    · obtain ⟨h1, h2, h3⟩ := ih _ _ h
      refine ⟨h1, h2, fun d => ?_⟩
      rw [h3 d]
      simp only [List.mem_cons]
      tauto
    · exact absurd h (by simp)

/-- Successful scanning of one token appends exactly the supplied pair of
the token and sets exactly the flags the token mentions. -/
theorem scanToken_ok (decls : Declarations) (st st2 : ScanState) (tok : String)
    (h : scanToken decls st tok = Except.ok st2) :
    st2.supplied = st.supplied ++ (match tokenSupply tok with
      | some p => [p]
      | none => []) ∧
    ∀ c, c ∈ st2.flagsOn ↔ (c ∈ st.flagsOn ∨ flagMentioned tok c = true) := by
  simp only [scanToken] at h
  split at h
  · rename_i hov
    simp only [Except.ok.injEq] at h
    subst h
    simp [tokenSupply, flagMentioned, hov]
  · rename_i hov
    split at h
    · rename_i p hsplit
      split at h
      · simp only [Except.ok.injEq] at h
        subst h
        constructor
        · simp only [tokenSupply, if_neg hov, String.toList] at hsplit ⊢
          simp [hsplit]
        · intro c
          simp only [flagMentioned, if_neg hov, String.toList] at hsplit ⊢
          simp [hsplit]
      · exact absurd h (by simp)
    · rename_i hsplit
      split at h
      · rename_i cs hlist
        obtain ⟨h1, h2, h3⟩ := setFlags_ok decls cs st st2 h
        constructor
        · simp only [tokenSupply, if_neg hov, String.toList] at hsplit ⊢
          simp [h1, hsplit]
        · intro c
          rw [h3 c]
          simp only [flagMentioned, if_neg hov, String.toList] at hsplit hlist ⊢
          rw [hlist] at hsplit
          simp [hsplit, hlist]
      · exact absurd h (by simp)

/-- Successful scanning of an argument list extends the supplied literals
of every key by exactly the literals the list supplies for it, and makes
the set flags exactly the old ones plus the flags some token mentions. -/
theorem scanArgs_ok (decls : Declarations) :
    ∀ (argv : List String) (st st2 : ScanState),
      scanArgs decls st argv = Except.ok st2 →
      (∀ key, suppliedFor st2 key = suppliedFor st key ++ suppliedLits key argv) ∧
      ∀ c, c ∈ st2.flagsOn ↔
        (c ∈ st.flagsOn ∨ ∃ tok, tok ∈ argv ∧ flagMentioned tok c = true) := by
  intro argv
  induction argv with
  | nil =>
    intro st st2 h
    simp [scanArgs] at h
    subst h
    simp [suppliedLits]
  | cons tok rest ih =>
    intro st st2 h
    simp only [scanArgs] at h
    split at h
    · rename_i htok
      obtain ⟨h1, h3⟩ := scanToken_ok decls st _ tok htok
      obtain ⟨ih1, ih2⟩ := ih _ st2 h
      constructor
      · intro key
        rw [ih1 key]
        simp only [suppliedFor, h1, List.filterMap_append, suppliedLits,
          List.filterMap_cons]
        cases hts : tokenSupply tok with
        | none => simp
        | some p =>
          by_cases hk : p.1 = key
          · simp [hk]
          · simp [hk]
      · intro c
        rw [ih2 c, h3 c]
        simp only [List.mem_cons]
        constructor
        · rintro ((hc | hc) | ⟨t, ht, hm⟩)
          · exact Or.inl hc
          · exact Or.inr ⟨tok, Or.inl rfl, hc⟩
          · exact Or.inr ⟨t, Or.inr ht, hm⟩
        · rintro (hc | ⟨t, (rfl | ht), hm⟩)
          · exact Or.inl (Or.inl hc)
          · exact Or.inl (Or.inr hm)
          · exact Or.inr ⟨t, ht, hm⟩
    · exact absurd h (by simp)

/-- A successful scan of an argument list from the empty state records
exactly the supplied literals of every key. -/
theorem scan_suppliedFor (decls : Declarations) (argv : List String)
    (st : ScanState) (h : scan decls argv = Except.ok st) (key : String) :
    suppliedFor st key = suppliedLits key argv := by
  have := (scanArgs_ok decls argv _ st h).1 key
  simpa [suppliedFor] using this

/-- Every error produced by coercing a literal list is a type coercion
error. -/
theorem coerceList_error_shape (key : String) (t : OptType) :
    ∀ (ls : List String) (e : ParseError),
      coerceList key t ls = Except.error e →
      ∃ k l, e = ParseError.TypeCoercionError k l := by
  intro ls
  induction ls with
  | nil =>
    intro e h
    simp [coerceList] at h
  | cons l rest ih =>
    intro e h
    simp only [coerceList] at h
    split at h
    · split at h
      · exact absurd h (by simp)
      · rename_i e2 herr
        simp only [Except.error.injEq] at h
        subst h
        exact ih e2 herr
    · simp only [Except.error.injEq] at h
      subst h
      exact ⟨key, l, rfl⟩

/-- Every error produced by resolving one option is a type coercion
error. -/
theorem resolveOption_error_shape (st : ScanState) (o : OptionDecl)
    (e : ParseError) (h : resolveOption st o = Except.error e) :
    ∃ k l, e = ParseError.TypeCoercionError k l := by
  simp only [resolveOption] at h
  split at h
  · split at h
    · exact absurd h (by simp)
    · split at h
      · exact absurd h (by simp)
      · simp only [Except.error.injEq] at h
        subst h
        exact ⟨o.key, _, rfl⟩
  · split at h
    · split at h
      · exact absurd h (by simp)
      · rename_i herr
        simp only [Except.error.injEq] at h
        subst h
        exact coerceList_error_shape o.key o.type _ _ herr
    · split at h
      · exact absurd h (by simp)
      · simp only [Except.error.injEq] at h
        subst h
        exact ⟨o.key, _, rfl⟩

/-- Every error produced by resolving the option list is a type coercion
error. -/
theorem resolveAll_error_shape (st : ScanState) :
    ∀ (os : List OptionDecl) (e : ParseError),
      resolveAll st os = Except.error e →
      ∃ k l, e = ParseError.TypeCoercionError k l := by
  intro os
  induction os with
  | nil =>
    intro e h
    simp [resolveAll] at h
  | cons o rest ih =>
    intro e h
    simp only [resolveAll] at h
    split at h
    · rename_i herr
      simp only [Except.error.injEq] at h
      subst h
      exact resolveOption_error_shape st o _ herr
    · split at h
      · rename_i herr
        simp only [Except.error.injEq] at h
        subst h
        exact ih _ herr
      · exact absurd h (by simp)

/-- When some declared option fails to resolve, resolving the option list
fails. -/
theorem resolveAll_error_of_mem (st : ScanState) :
    ∀ (os : List OptionDecl) (o : OptionDecl) (e0 : ParseError),
      o ∈ os → resolveOption st o = Except.error e0 →
      ∃ e, resolveAll st os = Except.error e := by
  intro os
  induction os with
  | nil =>
    intro o e0 hmem
    simp at hmem
  | cons o2 rest ih =>
    intro o e0 hmem herr
    rcases List.mem_cons.mp hmem with rfl | hmem2
    · exact ⟨e0, by simp [resolveAll, herr]⟩
    · simp only [resolveAll]
      cases h2 : resolveOption st o2 with
      | error e2 => exact ⟨e2, rfl⟩
      | ok v? =>
        obtain ⟨e, he⟩ := ih o e0 hmem2 herr
        rw [he]
        exact ⟨e, rfl⟩

/-- A failing literal list coercion names the option key and an
offending member of the list whose coercion fails. -/
theorem coerceList_error_evidence (key : String) (t : OptType) :
    ∀ (ls : List String) (e : ParseError),
      coerceList key t ls = Except.error e →
      ∃ l, l ∈ ls ∧ coerceValue t l = none ∧
        e = ParseError.TypeCoercionError key l := by
  intro ls
  induction ls with
  | nil =>
    intro e h
    simp [coerceList] at h
  | cons l rest ih =>
    intro e h
    simp only [coerceList] at h
    split at h
    · split at h
      · exact absurd h (by simp)
      · rename_i e2 herr
        simp only [Except.error.injEq] at h
        subst h
        obtain ⟨l2, hmem, hco, rfl⟩ := ih e2 herr
        exact ⟨l2, List.mem_cons_of_mem _ hmem, hco, rfl⟩
    · rename_i hv
      simp only [Except.error.injEq] at h
      subst h
      exact ⟨l, List.mem_cons_self _ _, hv, rfl⟩

/-- A literal list containing a member that fails coercion does not
coerce as a whole. -/
theorem coerceList_error_of_mem (key : String) (t : OptType) :
    ∀ (ls : List String) (l : String),
      l ∈ ls → coerceValue t l = none →
      ∃ e, coerceList key t ls = Except.error e := by
  intro ls
  induction ls with
  | nil =>
    intro l hmem
    simp at hmem
  | cons l0 rest ih =>
    intro l hmem hco
    cases hv : coerceValue t l0 with
    | none =>
      exact ⟨ParseError.TypeCoercionError key l0, by simp [coerceList, hv]⟩
    | some v =>
      rcases List.mem_cons.mp hmem with rfl | hmem2
      · rw [hv] at hco
        exact absurd hco (by simp)
      · obtain ⟨e, he⟩ := ih l hmem2 hco
        exact ⟨e, by simp [coerceList, hv, he]⟩

/-- A failing option resolution names the key of that option and one of
the literals its resolution coerces whose coercion fails. -/
theorem resolveOption_error_evidence (st : ScanState) (o : OptionDecl)
    (e : ParseError) (h : resolveOption st o = Except.error e) :
    ∃ l, l ∈ coercedLits st o ∧ coerceValue o.type l = none ∧
      e = ParseError.TypeCoercionError o.key l := by
  simp only [resolveOption] at h
  split at h
  · rename_i hsup
    split at h
    · exact absurd h (by simp)
    · rename_i d hd
      split at h
      · exact absurd h (by simp)
      · rename_i hco
        simp only [Except.error.injEq] at h
        subst h
        exact ⟨d, by simp [coercedLits, hsup, hd], hco, rfl⟩
  · rename_i lit rest hsup
    split at h
    · rename_i hmult
      split at h
      · exact absurd h (by simp)
      · rename_i e2 herr
        simp only [Except.error.injEq] at h
        subst h
        obtain ⟨l, hmem, hco, rfl⟩ :=
          coerceList_error_evidence o.key o.type _ _ herr
        refine ⟨l, ?_, hco, rfl⟩
        simp only [coercedLits, hsup, if_pos hmult]
        exact hmem
    · rename_i hmult
      split at h
      · exact absurd h (by simp)
      · rename_i hco
        simp only [Except.error.injEq] at h
        subst h
        refine ⟨lit, ?_, hco, rfl⟩
        simp [coercedLits, hsup, hmult]

/-- An option one of whose coerced literals fails its declared type
coercion fails to resolve. -/
theorem resolveOption_error_of_lit (st : ScanState) (o : OptionDecl)
    (lit : String) (hmem : lit ∈ coercedLits st o)
    (hco : coerceValue o.type lit = none) :
    ∃ e, resolveOption st o = Except.error e := by
  cases hsup : suppliedFor st o.key with
  | nil =>
    cases hd : o.answer with
    | none => simp [coercedLits, hsup, hd] at hmem
    | some d =>
      have hld : lit = d := by simpa [coercedLits, hsup, hd] using hmem
      rw [hld] at hco
      exact ⟨ParseError.TypeCoercionError o.key d,
        by simp [resolveOption, hsup, hd, hco]⟩
  | cons l0 rest =>
    cases hmult : o.multiple with
    | true =>
      have hmem2 : lit ∈ ((l0 :: rest).map splitOnComma).flatten := by
        simpa [coercedLits, hsup, hmult] using hmem
      obtain ⟨e, he⟩ := coerceList_error_of_mem o.key o.type _ lit hmem2 hco
      refine ⟨e, ?_⟩
      simp only [List.map_cons, List.flatten_cons] at he
      simp [resolveOption, hsup, hmult, he]
    | false =>
      have hl0 : lit = l0 := by simpa [coercedLits, hsup, hmult] using hmem
      rw [hl0] at hco
      exact ⟨ParseError.TypeCoercionError o.key l0,
        by simp [resolveOption, hsup, hmult, hco]⟩

/-- A failing resolution of the option list names the key of a declared
option and one of the literals its resolution coerces whose coercion
fails. -/
theorem resolveAll_error_evidence (st : ScanState) :
    ∀ (os : List OptionDecl) (e : ParseError),
      resolveAll st os = Except.error e →
      ∃ o2, o2 ∈ os ∧ ∃ l, l ∈ coercedLits st o2 ∧
        coerceValue o2.type l = none ∧
        e = ParseError.TypeCoercionError o2.key l := by
  intro os
  induction os with
  | nil =>
    intro e h
    simp [resolveAll] at h
  | cons o rest ih =>
    intro e h
    simp only [resolveAll] at h
    split at h
    · rename_i herr
      simp only [Except.error.injEq] at h
      subst h
      obtain ⟨l, hmem, hco, rfl⟩ := resolveOption_error_evidence st o _ herr
      exact ⟨o, List.mem_cons_self _ _, l, hmem, hco, rfl⟩
    · split at h
      · rename_i herr
        simp only [Except.error.injEq] at h
        subst h
        obtain ⟨o2, hmem, l, hl, hco, rfl⟩ := ih _ herr
        exact ⟨o2, List.mem_cons_of_mem _ hmem, l, hl, hco, rfl⟩
      · exact absurd h (by simp)

/-- Resolving an option that was not supplied but declares a default
answer yields the coerced default, or fails when the default itself does
not coerce. -/
theorem resolveOption_default (st : ScanState) (o : OptionDecl) (d : String)
    (hsup : suppliedFor st o.key = []) (hd : o.answer = some d) :
    resolveOption st o = (match coerceValue o.type d with
      | some v => Except.ok (some (Value.single v))
      | none => Except.error (ParseError.TypeCoercionError o.key d)) := by
  simp [resolveOption, hsup, hd]

/-- In a successfully resolved option list with pairwise distinct keys,
an unsupplied option with a default answer resolves to its coerced
default. -/
theorem resolveAll_lookup_default (st : ScanState) :
    ∀ (os : List OptionDecl) (o : OptionDecl) (d : String)
      (l : List (String × Value)),
      (os.map OptionDecl.key).Nodup → o ∈ os →
      suppliedFor st o.key = [] → o.answer = some d →
      resolveAll st os = Except.ok l →
      l.lookup o.key = (coerceValue o.type d).map Value.single := by
  intro os
  induction os with
  | nil =>
    intro o d l hnd hmem
    simp at hmem
  | cons o2 rest ih =>
    intro o d l hnd hmem hsup hd hall
    simp only [resolveAll] at hall
    split at hall
    · exact absurd hall (by simp)
    · rename_i v? hv
      split at hall
      · exact absurd hall (by simp)
      · rename_i tail htail
        simp only [Except.ok.injEq] at hall
        subst hall
        rcases List.mem_cons.mp hmem with rfl | hmem2
        · rw [resolveOption_default st o d hsup hd] at hv
          cases hc : coerceValue o.type d with
          | none => rw [hc] at hv; exact absurd hv (by simp)
          | some v =>
            rw [hc] at hv
            simp only [Except.ok.injEq] at hv
            subst hv
            simp [List.lookup]
        · have hkey : o2.key ≠ o.key := by
            intro hk
            have : o.key ∈ rest.map OptionDecl.key :=
              List.mem_map.mpr ⟨o, hmem2, rfl⟩
            rw [← hk] at this
            exact (List.nodup_cons.mp hnd).1 this
          have hrec := ih o d tail (List.nodup_cons.mp hnd).2 hmem2 hsup hd htail
          cases v? with
          | none => simpa using hrec
          | some v =>
            have hbeq : (o.key == o2.key) = false := by
              simp only [beq_eq_false_iff_ne, ne_eq]
              exact fun hk => hkey hk.symm
            simp only [List.lookup, hbeq]
            exact hrec

/-- Looking up a declared flag key in the resolved flag mapping yields
whether the key was set during the scan. -/
theorem resolveFlags_lookup (st : ScanState) :
    ∀ (fs : List FlagDecl) (x : Char),
      (∃ f, f ∈ fs ∧ f.key = x) →
      (fs.map (fun f => (f.key, decide (f.key ∈ st.flagsOn)))).lookup x
        = some (decide (x ∈ st.flagsOn)) := by
  intro fs
  induction fs with
  | nil =>
    intro x hex
    simp at hex
  | cons f fs ih =>
    intro x hex
    by_cases hk : f.key = x
    · subst hk
      simp [List.lookup]
    · have hex2 : ∃ g, g ∈ fs ∧ g.key = x := by
        obtain ⟨g, hg, hgk⟩ := hex
        rcases List.mem_cons.mp hg with rfl | h2
        · exact absurd hgk hk
        · exact ⟨g, h2, hgk⟩
      have hbeq : (x == f.key) = false := by
        simp only [beq_eq_false_iff_ne, ne_eq]
        exact fun e => hk e.symm
      simp only [List.map_cons, List.lookup, hbeq]
      exact ih x hex2

/-- Looking up a declared flag key in the resolved flag mapping of a
declaration set yields whether the key was set during the scan. -/
theorem resolveFlags_lookup_decls (decls : Declarations) (st : ScanState)
    (x : Char) (hex : ∃ f, f ∈ decls.flags ∧ f.key = x) :
    (resolveFlags decls st).lookup x = some (decide (x ∈ st.flagsOn)) :=
  resolveFlags_lookup st decls.flags x hex

/-- An argument list none of whose tokens supplies the key supplies no
literal for it. -/
theorem suppliedLits_eq_nil (key : String) :
    ∀ (argv : List String),
      (∀ tok, tok ∈ argv → suppliesKey tok key = false) →
      suppliedLits key argv = [] := by
  intro argv
  induction argv with
  | nil =>
    intro h
    rfl
  | cons tok rest ih =>
    intro h
    have htok := h tok (List.mem_cons_self tok rest)
    have hrest := ih (fun t ht => h t (List.mem_cons_of_mem tok ht))
    simp only [suppliedLits, List.filterMap_cons] at hrest ⊢
    cases hts : tokenSupply tok with
    | none => exact hrest
    | some p =>
      have hne : ¬(p.1 = key) := by
        simp only [suppliesKey, hts, decide_eq_false_iff_not] at htok
        exact htok
      simp only [hts, if_neg hne]
      exact hrest

/-- A successful parse that returns resolved arguments decomposes into a
successful scan with no missing required option, no duplicated
single-value option, and a successful resolution. -/
theorem parse_done_parts (decls : Declarations) (argv : List String)
    (r : Resolved) (h : parse decls argv = Except.ok (ParseOutcome.done r)) :
    "--help" ∉ argv ∧
    ∃ st, scan decls argv = Except.ok st ∧
      firstMissingRequired decls st = none ∧
      firstDuplicate decls st = none ∧
      ∃ opts, resolveAll st decls.options = Except.ok opts ∧
        r = { optionValues := opts
              flagValues := resolveFlags decls st
              overwrite := st.overwrite } := by
  simp only [parse] at h
  split at h
  · simp at h
  · rename_i hh
    refine ⟨hh, ?_⟩
    split at h
    · exact absurd h (by simp)
    · rename_i st hscan
      split at h
      · exact absurd h (by simp)
      · rename_i hmr
        split at h
        · exact absurd h (by simp)
        · rename_i hdup
          split at h
          · exact absurd h (by simp)
          · rename_i opts hres
            simp only [Except.ok.injEq, ParseOutcome.done.injEq] at h
            exact ⟨st, hscan, hmr, hdup, opts, hres, h.symm⟩

/-- Unfolding of parse at a missing required option. -/
theorem parse_eq_missing (decls : Declarations) (argv : List String)
    (st : ScanState) (k : String) (hh : "--help" ∉ argv)
    (hscan : scan decls argv = Except.ok st)
    (hmr : firstMissingRequired decls st = some k) :
    parse decls argv = Except.error (ParseError.MissingRequiredOptionError k) := by
  simp [parse, hscan, hmr, hh]

/-- Unfolding of parse at a duplicated single-value option. -/
theorem parse_eq_duplicate (decls : Declarations) (argv : List String)
    (st : ScanState) (k : String) (hh : "--help" ∉ argv)
    (hscan : scan decls argv = Except.ok st)
    (hmr : firstMissingRequired decls st = none)
    (hdup : firstDuplicate decls st = some k) :
    parse decls argv = Except.error (ParseError.DuplicateOptionError k) := by
  simp [parse, hscan, hmr, hdup, hh]

/-- Unfolding of parse at a failing resolution. -/
theorem parse_eq_resolve_error (decls : Declarations) (argv : List String)
    (st : ScanState) (e : ParseError) (hh : "--help" ∉ argv)
    (hscan : scan decls argv = Except.ok st)
    (hmr : firstMissingRequired decls st = none)
    (hdup : firstDuplicate decls st = none)
    (hres : resolveAll st decls.options = Except.error e) :
    parse decls argv = Except.error e := by
  simp [parse, hscan, hmr, hdup, hres, hh]

/-- C1: against the scenario declarations, parsing elevation=dem -c
resolves elevation to the text dem, max_distance to its coerced default
answer -1 (the exact value -1.0) and the flag c to true; and in general,
for every declaration set with pairwise distinct option keys, every
option declaring a default answer resolves to its coerced default
whenever parse succeeds on an argument list that does not supply the
option. -/
theorem C1_default_resolution :
    (parse scenarioDecls ["elevation=dem", "-c"] =
      Except.ok (ParseOutcome.done
        { optionValues := [("elevation", Value.single (Scalar.str "dem")),
                           ("max_distance", Value.single (Scalar.dbl (-1)))]
          flagValues := [('c', true)]
          overwrite := false })) ∧
    ∀ (decls : Declarations) (argv : List String) (o : OptionDecl)
      (d : String) (r : Resolved),
      (decls.options.map OptionDecl.key).Nodup →
      o ∈ decls.options → o.answer = some d →
      (∀ tok, tok ∈ argv → suppliesKey tok o.key = false) →
      parse decls argv = Except.ok (ParseOutcome.done r) →
      r.optionValues.lookup o.key = (coerceValue o.type d).map Value.single := by
  constructor
  · decide
  · intro decls argv o d r hnd hmem hd hns hp
    obtain ⟨hh, st, hscan, hmr, hdup, opts, hres, hr⟩ :=
      parse_done_parts decls argv r hp
    have hsup : suppliedFor st o.key = [] := by
      rw [scan_suppliedFor decls argv st hscan]
      exact suppliedLits_eq_nil o.key argv hns
    subst hr
    exact resolveAll_lookup_default st decls.options o d opts hnd hmem hsup hd hres

/-- Witness for C1 at the concrete scenario: the resolved max_distance
value is the coerced default answer -1. -/
theorem C1_default_resolution_witness :
    ([("elevation", Value.single (Scalar.str "dem")),
      ("max_distance", Value.single (Scalar.dbl (-1)))] :
        List (String × Value)).lookup "max_distance"
      = (coerceValue maxDistanceDecl.type "-1").map Value.single :=
  C1_default_resolution.2 scenarioDecls ["elevation=dem", "-c"] maxDistanceDecl "-1"
    { optionValues := [("elevation", Value.single (Scalar.str "dem")),
                       ("max_distance", Value.single (Scalar.dbl (-1)))]
      flagValues := [('c', true)]
      overwrite := false }
    (by decide) (by decide) rfl (by decide) (by decide)

/-- C2: against the scenario declarations, the input -c alone fails with
MissingRequiredOptionError naming elevation and the program body is never
invoked; and in general, whenever a declared required option without a
default answer is not supplied by an argument list that scans cleanly and
requests no help, parse fails with MissingRequiredOptionError naming a
required, defaultless, unsupplied option key and the program body is
never invoked. -/
theorem C2_missing_required :
    (∀ (body : Resolved → Nat),
      runModule scenarioDecls ["-c"] body =
        RunResult.parseFailed (ParseError.MissingRequiredOptionError "elevation") 1) ∧
    ∀ (decls : Declarations) (argv : List String) (o : OptionDecl),
      "--help" ∉ argv →
      (∃ st, scan decls argv = Except.ok st) →
      o ∈ decls.options → o.required = true → o.answer = none →
      (∀ tok, tok ∈ argv → suppliesKey tok o.key = false) →
      ∃ k, parse decls argv = Except.error (ParseError.MissingRequiredOptionError k) ∧
        (∃ o2, o2 ∈ decls.options ∧ o2.key = k ∧ o2.required = true ∧
          o2.answer = none ∧ suppliedLits k argv = []) ∧
        ∀ (body : Resolved → Nat),
          runModule decls argv body =
            RunResult.parseFailed (ParseError.MissingRequiredOptionError k) 1 := by
  constructor
  · intro body
    simp only [runModule]
    rfl
  · intro decls argv o hh hst hmem hreq hans hns
    obtain ⟨st, hscan⟩ := hst
    have hsup : ∀ key, suppliedFor st key = suppliedLits key argv :=
      scan_suppliedFor decls argv st hscan
    have hp : ((suppliedFor st o.key).isEmpty && o.answer.isNone && o.required) = true := by
      rw [hsup o.key, suppliedLits_eq_nil o.key argv hns]
      simp [hans, hreq]
    have hsome : (decls.options.find? (fun o2 =>
        (suppliedFor st o2.key).isEmpty && o2.answer.isNone && o2.required)).isSome := by
      rw [List.find?_isSome]
      exact ⟨o, hmem, hp⟩
    obtain ⟨o2, ho2⟩ := Option.isSome_iff_exists.mp hsome
    have ho2mem : o2 ∈ decls.options := List.mem_of_find?_eq_some ho2
    have ho2p := List.find?_some ho2
    simp only [Bool.and_eq_true, List.isEmpty_iff, Option.isNone_iff_eq_none] at ho2p
    have hmr : firstMissingRequired decls st = some o2.key := by
      simp [firstMissingRequired, ho2]
    have hparse := parse_eq_missing decls argv st o2.key hh hscan hmr
    refine ⟨o2.key, hparse, ⟨o2, ho2mem, rfl, ho2p.2, ho2p.1.2, ?_⟩, ?_⟩
    · rw [← hsup o2.key]
      exact ho2p.1.1
    · intro body
      simp [runModule, hparse]

/-- Witness for C2 at the concrete scenario: parsing -c alone fails with
MissingRequiredOptionError naming elevation. -/
theorem C2_missing_required_witness :
    ∃ k, parse scenarioDecls ["-c"] =
        Except.error (ParseError.MissingRequiredOptionError k) ∧
      (∃ o2, o2 ∈ scenarioDecls.options ∧ o2.key = k ∧ o2.required = true ∧
        o2.answer = none ∧ suppliedLits k ["-c"] = []) ∧
      ∀ (body : Resolved → Nat),
        runModule scenarioDecls ["-c"] body =
          RunResult.parseFailed (ParseError.MissingRequiredOptionError k) 1 :=
  C2_missing_required.2 scenarioDecls ["-c"] elevationDecl (by decide)
    ⟨{ supplied := [], flagsOn := ['c'], overwrite := false }, by decide⟩
    (by decide) rfl rfl (by decide)

/-- C3: against the scenario declarations, the input elevation=dem
max_distance=abc fails with TypeCoercionError naming max_distance and the
literal abc; and in general, whenever some literal an option's resolution
coerces (a supplied literal, a comma-split part of a multi-value supply,
or the default answer) fails its declared type coercion, on an argument
list that scans cleanly, requests no help, misses no required option and
duplicates no single-value option, parse fails with a TypeCoercionError
naming the key of a declared option together with a literal of that very
option whose coercion fails, and the program body is never invoked. -/
theorem C3_type_coercion :
    (parse scenarioDecls ["elevation=dem", "max_distance=abc"] =
      Except.error (ParseError.TypeCoercionError "max_distance" "abc")) ∧
    ∀ (decls : Declarations) (argv : List String) (st : ScanState)
      (o : OptionDecl) (lit : String),
      "--help" ∉ argv →
      scan decls argv = Except.ok st →
      firstMissingRequired decls st = none →
      firstDuplicate decls st = none →
      o ∈ decls.options →
      lit ∈ coercedLits st o →
      coerceValue o.type lit = none →
      ∃ k l, parse decls argv = Except.error (ParseError.TypeCoercionError k l) ∧
        (∃ o2, o2 ∈ decls.options ∧ o2.key = k ∧ l ∈ coercedLits st o2 ∧
          coerceValue o2.type l = none) ∧
        ∀ (body : Resolved → Nat),
          runModule decls argv body =
            RunResult.parseFailed (ParseError.TypeCoercionError k l) 1 := by
  constructor
  · decide
  · intro decls argv st o lit hh hscan hmr hdup hmem hlit hco
    obtain ⟨e0, he0⟩ := resolveOption_error_of_lit st o lit hlit hco
    obtain ⟨e, he⟩ := resolveAll_error_of_mem st decls.options o e0 hmem he0
    obtain ⟨o2, ho2mem, l, hl, hco2, rfl⟩ :=
      resolveAll_error_evidence st decls.options e he
    have hparse := parse_eq_resolve_error decls argv st _ hh hscan hmr hdup he
    exact ⟨o2.key, l, hparse, ⟨o2, ho2mem, rfl, hl, hco2⟩,
      fun body => by simp [runModule, hparse]⟩

/-- Witness for C3 at the concrete scenario: parsing elevation=dem
max_distance=abc fails with a TypeCoercionError naming the key of a
declared option and a failing literal of that option. -/
theorem C3_type_coercion_witness :
    ∃ k l, parse scenarioDecls ["elevation=dem", "max_distance=abc"] =
        Except.error (ParseError.TypeCoercionError k l) ∧
      (∃ o2, o2 ∈ scenarioDecls.options ∧ o2.key = k ∧
        l ∈ coercedLits ({ supplied := [("elevation", "dem"), ("max_distance", "abc")]
                           flagsOn := [], overwrite := false } : ScanState) o2 ∧
        coerceValue o2.type l = none) ∧
      ∀ (body : Resolved → Nat),
        runModule scenarioDecls ["elevation=dem", "max_distance=abc"] body =
          RunResult.parseFailed (ParseError.TypeCoercionError k l) 1 :=
  C3_type_coercion.2 scenarioDecls ["elevation=dem", "max_distance=abc"]
    { supplied := [("elevation", "dem"), ("max_distance", "abc")]
      flagsOn := [], overwrite := false }
    maxDistanceDecl "abc" (by decide) (by decide) (by decide) (by decide)
    (by decide) (by decide) (by decide)

/-- C4: for every declaration set, parsing the single token requesting
help yields the usage document derived from the declarations as a success
outcome, and the module run shows the help document, never invokes the
program body, and terminates with exit status zero. -/
theorem C4_help_exits_zero :
    ∀ (decls : Declarations),
      parse decls ["--help"] =
        Except.ok (ParseOutcome.help (usageDocument decls)) ∧
      ∀ (body : Resolved → Nat),
        runModule decls ["--help"] body =
          RunResult.helpShown (usageDocument decls) 0 := by
  intro decls
  constructor
  · simp [parse]
  · intro body
    simp [runModule, parse]

/-- C5: whenever parse succeeds, a token consisting of a dash followed by
two distinct declared flag characters sets both flags to true in the
resolved flag mapping, and every declared flag mentioned by no token of
the argument list resolves to false.  The two characters are not the
key-value separator, since a token containing the separator is read as an
option supply. -/
theorem C5_combined_flags :
    ∀ (decls : Declarations) (argv : List String) (r : Resolved) (x y : Char),
      x ≠ y → x ≠ '=' → y ≠ '=' →
      (∃ f, f ∈ decls.flags ∧ f.key = x) →
      (∃ f, f ∈ decls.flags ∧ f.key = y) →
      String.mk ['-', x, y] ∈ argv →
      parse decls argv = Except.ok (ParseOutcome.done r) →
      (r.flagValues.lookup x = some true ∧ r.flagValues.lookup y = some true) ∧
      ∀ f, f ∈ decls.flags →
        (∀ tok, tok ∈ argv → flagMentioned tok f.key = false) →
        r.flagValues.lookup f.key = some false := by
  intro decls argv r x y hxy hx hy hfx hfy htokmem hp
  obtain ⟨hh, st, hscan, hmr, hdup, opts, hres, hr⟩ :=
    parse_done_parts decls argv r hp
  have hflags := (scanArgs_ok decls argv _ st hscan).2
  have hne : String.mk ['-', x, y] ≠ "--overwrite" := by
    intro he
    have h2 := congrArg String.length he
    simp [String.length] at h2
  have hsplit : splitAtChar '=' ['-', x, y] = none := by
    have hd : ('-' : Char) ≠ '=' := by decide
    simp [splitAtChar, hd, hx, hy]
  have hmentx : flagMentioned (String.mk ['-', x, y]) x = true := by
    simp [flagMentioned, hne, String.toList, hsplit]
  have hmenty : flagMentioned (String.mk ['-', x, y]) y = true := by
    simp [flagMentioned, hne, String.toList, hsplit]
  have hxin : x ∈ st.flagsOn :=
    (hflags x).mpr (Or.inr ⟨String.mk ['-', x, y], htokmem, hmentx⟩)
  have hyin : y ∈ st.flagsOn :=
    (hflags y).mpr (Or.inr ⟨String.mk ['-', x, y], htokmem, hmenty⟩)
  subst hr
  constructor
  · constructor
    · show (resolveFlags decls st).lookup x = some true
      rw [resolveFlags_lookup_decls decls st x hfx]
      simp [hxin]
    · show (resolveFlags decls st).lookup y = some true
      rw [resolveFlags_lookup_decls decls st y hfy]
      simp [hyin]
  · intro f hf hnm
    have hfnot : f.key ∉ st.flagsOn := by
      intro hin
      rcases (hflags f.key).mp hin with h0 | ⟨tok, htk, hm⟩
      · simp at h0
      · rw [hnm tok htk] at hm
        exact absurd hm (by simp)
    show (resolveFlags decls st).lookup f.key = some false
    rw [resolveFlags_lookup_decls decls st f.key ⟨f, hf, rfl⟩]
    simp [hfnot]

/-- Witness for C5 at a concrete declaration set with flags a and b:
parsing -ab sets both flags true. -/
theorem C5_combined_flags_witness :
    ((([('a', true), ('b', true)] : List (Char × Bool)).lookup 'a' = some true ∧
      ([('a', true), ('b', true)] : List (Char × Bool)).lookup 'b' = some true) ∧
    ∀ f, f ∈ twoFlagDecls.flags →
      (∀ tok, tok ∈ ["-ab"] → flagMentioned tok f.key = false) →
      ([('a', true), ('b', true)] : List (Char × Bool)).lookup f.key = some false) :=
  C5_combined_flags twoFlagDecls ["-ab"]
    { optionValues := [], flagValues := [('a', true), ('b', true)],
      overwrite := false }
    'a' 'b' (by decide) (by decide) (by decide)
    ⟨{ key := 'a', description := "first flag" }, by decide, rfl⟩
    ⟨{ key := 'b', description := "second flag" }, by decide, rfl⟩
    (by decide) (by decide)

/-- C6: against the scenario declarations, supplying max_distance twice
fails with DuplicateOptionError naming max_distance; and in general,
whenever an argument list that scans cleanly, requests no help and misses
no required option supplies a single-value option twice, parse fails with
a DuplicateOptionError and no resolved arguments are returned, the
program body never being invoked. -/
theorem C6_duplicate_option :
    (parse scenarioDecls ["elevation=dem", "max_distance=1", "max_distance=2"] =
      Except.error (ParseError.DuplicateOptionError "max_distance")) ∧
    ∀ (decls : Declarations) (argv : List String) (o : OptionDecl),
      "--help" ∉ argv →
      (∃ st, scan decls argv = Except.ok st) →
      (∀ st, scan decls argv = Except.ok st →
        firstMissingRequired decls st = none) →
      o ∈ decls.options → o.multiple = false →
      2 ≤ (suppliedLits o.key argv).length →
      ∃ k, parse decls argv = Except.error (ParseError.DuplicateOptionError k) ∧
        ∀ (body : Resolved → Nat),
          runModule decls argv body =
            RunResult.parseFailed (ParseError.DuplicateOptionError k) 1 := by
  constructor
  · decide
  · intro decls argv o hh hst hmrall hmem hmult htwice
    obtain ⟨st, hscan⟩ := hst
    have hmr := hmrall st hscan
    have hp : (!o.multiple && decide (2 ≤ (suppliedFor st o.key).length)) = true := by
      rw [scan_suppliedFor decls argv st hscan]
      simp [hmult, htwice]
    have hsome : (decls.options.find? (fun o2 =>
        !o2.multiple && decide (2 ≤ (suppliedFor st o2.key).length))).isSome := by
      rw [List.find?_isSome]
      exact ⟨o, hmem, hp⟩
    obtain ⟨o2, ho2⟩ := Option.isSome_iff_exists.mp hsome
    have hdup : firstDuplicate decls st = some o2.key := by
      simp [firstDuplicate, ho2]
    have hparse := parse_eq_duplicate decls argv st o2.key hh hscan hmr hdup
    exact ⟨o2.key, hparse, fun body => by simp [runModule, hparse]⟩

/-- Witness for C6 at the concrete scenario: supplying max_distance twice
fails with a DuplicateOptionError. -/
theorem C6_duplicate_option_witness :
    ∃ k, parse scenarioDecls ["elevation=dem", "max_distance=1", "max_distance=2"] =
        Except.error (ParseError.DuplicateOptionError k) ∧
      ∀ (body : Resolved → Nat),
        runModule scenarioDecls ["elevation=dem", "max_distance=1", "max_distance=2"]
            body =
          RunResult.parseFailed (ParseError.DuplicateOptionError k) 1 :=
  C6_duplicate_option.2 scenarioDecls
    ["elevation=dem", "max_distance=1", "max_distance=2"] maxDistanceDecl
    (by decide)
    ⟨{ supplied := [("elevation", "dem"), ("max_distance", "1"),
                    ("max_distance", "2")],
       flagsOn := [], overwrite := false }, by decide⟩
    (by
      intro st hscan
      have h0 : scan scenarioDecls
          ["elevation=dem", "max_distance=1", "max_distance=2"] =
          Except.ok ({ supplied := [("elevation", "dem"), ("max_distance", "1"),
                                    ("max_distance", "2")],
                       flagsOn := [], overwrite := false } : ScanState) := by
        decide
      rw [h0] at hscan
      cases hscan
      decide)
    (by decide) rfl (by decide)

/-- C7: registering an option fails with ConfigurationError whenever the
option is marked required while a default answer is supplied, whenever
the key is already registered, and whenever the type name is outside the
supported set; and every successful registration preserves the invariant
that a registered option carrying a default answer is optional. -/
theorem C7_declare_option_policy :
    ∀ (decls : Declarations) (key typeName : String) (required multiple : Bool)
      (answer : Option String) (description : String),
      ((required = true ∧ answer.isSome = true) →
        ∃ m, declare_option decls key typeName required multiple answer description
          = Except.error (ParseError.ConfigurationError m)) ∧
      ((∃ o, o ∈ decls.options ∧ o.key = key) →
        ∃ m, declare_option decls key typeName required multiple answer description
          = Except.error (ParseError.ConfigurationError m)) ∧
      (typeOfName typeName = none →
        ∃ m, declare_option decls key typeName required multiple answer description
          = Except.error (ParseError.ConfigurationError m)) ∧
      ∀ decls2,
        declare_option decls key typeName required multiple answer description
          = Except.ok decls2 →
        (∀ o, o ∈ decls.options → o.answer.isSome = true → o.required = false) →
        ∀ o, o ∈ decls2.options → o.answer.isSome = true → o.required = false := by
  intro decls key typeName required multiple answer description
  refine ⟨?_, ?_, ?_, ?_⟩
  · rintro ⟨hreq, hans⟩
    simp only [declare_option]
    split
    · exact ⟨_, rfl⟩
    · split
      · exact ⟨_, rfl⟩
      · rw [if_pos (by simp [hreq, hans])]
        exact ⟨_, rfl⟩
  · rintro ⟨o, hmem, hk⟩
    have hany : (decls.options.any (fun o2 => decide (o2.key = key))) = true :=
      List.any_eq_true.mpr ⟨o, hmem, by simp [hk]⟩
    simp only [declare_option, hany, if_true]
    exact ⟨_, rfl⟩
  · intro htn
    simp only [declare_option, htn]
    split
    · exact ⟨_, rfl⟩
    · exact ⟨_, rfl⟩
  · intro decls2 hok hinv o hmem hans
    simp only [declare_option] at hok
    split at hok
    · exact absurd hok (by simp)
    · split at hok
      · exact absurd hok (by simp)
      · rename_i t htn
        split at hok
        · exact absurd hok (by simp)
        · rename_i hnotrd
          split at hok
          · exact absurd hok (by simp)
          · simp only [Except.ok.injEq] at hok
            subst hok
            simp only [List.mem_append, List.mem_singleton] at hmem
            rcases hmem with hold | rfl
            · exact hinv o hold hans
            · simp only [Bool.and_eq_true, not_and] at hnotrd
              simp only at hans
              cases hr : required
              · rfl
              · rw [hr] at hnotrd
                exact absurd hans (by simpa using hnotrd)

/-- Witness for C7: registering max_distance as required while also
declaring the default answer -1 fails with a ConfigurationError, and a
successful registration of the optional max_distance preserves the
default-implies-optional invariant. -/
theorem C7_declare_option_policy_witness :
    (∃ m, declare_option emptyDecls "max_distance" "double" true false
        (some "-1") "Maximum visibility radius"
      = Except.error (ParseError.ConfigurationError m)) ∧
    ∀ o, o ∈ ({ module := { description := "", keywords := [] }
                options := [{ key := "max_distance", type := OptType.double,
                              required := false, multiple := false,
                              answer := some "-1",
                              description := "Maximum visibility radius" }]
                flags := [] } : Declarations).options →
      o.answer.isSome = true → o.required = false :=
  ⟨(C7_declare_option_policy emptyDecls "max_distance" "double" true false
      (some "-1") "Maximum visibility radius").1 ⟨rfl, rfl⟩,
   (C7_declare_option_policy emptyDecls "max_distance" "double" false false
      (some "-1") "Maximum visibility radius").2.2.2
     { module := { description := "", keywords := [] }
       options := [{ key := "max_distance", type := OptType.double,
                     required := false, multiple := false,
                     answer := some "-1",
                     description := "Maximum visibility radius" }]
       flags := [] }
     (by decide) (by intro o h1 h2; simp [emptyDecls] at h1)⟩

/-- The trace of the point loop is the starting trace followed by the
events of each processed point in order. -/
theorem foldl_processPoint_trace (pid : Nat) (basename : String) (env : Env) :
    ∀ (pts : List InputPoint) (s : ModuleState),
      (pts.foldl (processPoint pid basename env) s).trace
        = s.trace ++ (pts.map (pointEvents pid basename env)).flatten := by
  intro pts
  induction pts with
  | nil =>
    intro s
    simp
  | cons pt pts ih =>
    intro s
    simp only [List.foldl_cons, List.map_cons, List.flatten_cons]
    rw [ih]
    simp [processPoint, List.append_assoc]

/-- The records of the point loop are the starting records followed by
the record of each processed point in order. -/
theorem foldl_processPoint_records (pid : Nat) (basename : String) (env : Env) :
    ∀ (pts : List InputPoint) (s : ModuleState),
      (pts.foldl (processPoint pid basename env) s).records
        = s.records ++ pts.map (pointRecord env) := by
  intro pts
  induction pts with
  | nil =>
    intro s
    simp
  | cons pt pts ih =>
    intro s
    simp only [List.foldl_cons, List.map_cons]
    rw [ih]
    simp [processPoint, List.append_assoc]

/-- The temporary-map checker splits over a trace concatenation. -/
theorem createsTracked_split (T : List String) :
    ∀ (t1 t2 : List Event) (a : List String),
      createsTracked T a (t1 ++ t2)
        = (createsTracked T a t1 && createsTracked T (appendedAfter a t1) t2) := by
  intro t1
  induction t1 with
  | nil =>
    intro t2 a
    simp [createsTracked, appendedAfter]
  | cons e t1 ih =>
    intro t2 a
    cases e with
    | append n => simp [createsTracked, appendedAfter, ih]
    | createMap n => simp [createsTracked, appendedAfter, ih, Bool.and_assoc]
    | writeRecord rec => simp [createsTracked, appendedAfter, ih]
    | removeMaps ns => simp [createsTracked, appendedAfter, ih]
    | errorRaised => simp [createsTracked, appendedAfter, ih]

/-- Walking a trace of append events collects the appended names in
reverse order. -/
theorem appendedAfter_appends :
    ∀ (names : List String) (a : List String),
      appendedAfter a (names.map Event.append) = names.reverse ++ a := by
  intro names
  induction names with
  | nil =>
    intro a
    simp [appendedAfter]
  | cons n names ih =>
    intro a
    simp [appendedAfter, ih]

/-- A trace consisting only of append events passes the temporary-map
checker. -/
theorem createsTracked_appends (T : List String) :
    ∀ (names : List String) (a : List String),
      createsTracked T a (names.map Event.append) = true := by
  intro names
  induction names with
  | nil =>
    intro a
    rfl
  | cons n names ih =>
    intro a
    simp [createsTracked, ih]

/-- A trace without append events passes the temporary-map checker as
soon as every temporary name has already been appended. -/
theorem createsTracked_of_subset (T : List String) :
    ∀ (tr : List Event) (a : List String),
      (∀ n, Event.append n ∈ tr → False) →
      (∀ n, n ∈ T → n ∈ a) →
      createsTracked T a tr = true := by
  intro tr
  induction tr with
  | nil =>
    intro a h1 h2
    rfl
  | cons e tr ih =>
    intro a h1 h2
    cases e with
    | append n => exact (h1 n (List.mem_cons_self _ _)).elim
    | createMap n =>
      simp only [createsTracked, Bool.and_eq_true, decide_eq_true_eq]
      exact ⟨fun hn => h2 n hn,
        ih a (fun m hm => h1 m (List.mem_cons_of_mem _ hm)) h2⟩
    | writeRecord rec =>
      simp only [createsTracked]
      exact ih a (fun m hm => h1 m (List.mem_cons_of_mem _ hm)) h2
    | removeMaps ns =>
      simp only [createsTracked]
      exact ih a (fun m hm => h1 m (List.mem_cons_of_mem _ hm)) h2
    | errorRaised =>
      simp only [createsTracked]
      exact ih a (fun m hm => h1 m (List.mem_cons_of_mem _ hm)) h2

/-- The point loop emits no append event: TMP_MAPS is only extended
before the loop. -/
theorem pointEvents_no_append (pid : Nat) (basename : String) (env : Env)
    (pt : InputPoint) (m : String) :
    Event.append m ∈ pointEvents pid basename env pt → False := by
  intro h
  simp only [pointEvents, List.mem_append, List.mem_cons,
    List.not_mem_nil, or_false] at h
  rcases h with (h | h) | h
  · rcases h with h | h | h | h
    all_goals simp at h
  · split at h
    · simp at h
    · simp at h
  · simp at h

/-- C8: with the exit-time finalizer registration of the notebook, the
cleanup function runs on the final state of every terminating run of the
script body, whether the body returns normally or ends with an unhandled
error, and the resulting trace ends with the removal of the accumulated
temporary maps; in particular the erroring temporary-raster example still
removes all five temporary rasters after the intentional error. -/
theorem C8_cleanup_always_runs :
    (∀ (body : ScriptState → Except ScriptState ScriptState) (s0 : ScriptState),
      ∃ s1, (body s0 = Except.ok s1 ∨ body s0 = Except.error s1) ∧
        runWithAtexit body s0 = cleanup s1 ∧
        (runWithAtexit body s0).trace = s1.trace ++ [Event.removeMaps s1.tmpMaps]) ∧
    ∀ (pid : Nat),
      runWithAtexit (tmpRasterMain pid) { tmpMaps := [], trace := [] } =
        { tmpMaps := tmpRasterNames pid
          trace := [Event.append (tmpRasterName pid 0), Event.createMap (tmpRasterName pid 0),
                    Event.append (tmpRasterName pid 1), Event.createMap (tmpRasterName pid 1),
                    Event.append (tmpRasterName pid 2), Event.createMap (tmpRasterName pid 2),
                    Event.append (tmpRasterName pid 3), Event.createMap (tmpRasterName pid 3),
                    Event.append (tmpRasterName pid 4), Event.createMap (tmpRasterName pid 4),
                    Event.errorRaised,
                    Event.removeMaps (tmpRasterNames pid)] } := by
  constructor
  · intro body s0
    cases hb : body s0 with
    | ok s1 =>
      refine ⟨s1, Or.inl rfl, ?_, ?_⟩
      · simp [runWithAtexit, hb]
      · simp [runWithAtexit, hb, cleanup]
    | error s1 =>
      refine ⟨s1, Or.inr rfl, ?_, ?_⟩
      · simp [runWithAtexit, hb]
      · simp [runWithAtexit, hb, cleanup]
  · intro pid
    rfl

/-- C9: in the complete module, the four temporary map names are extended
onto TMP_MAPS before any map is created, so at every point of the trace a
created temporary map is already recorded in TMP_MAPS, for every process
id, every resolved option value, every environment of external command
results and every input point list. -/
theorem C9_tmp_maps_tracked :
    ∀ (pid : Nat) (elevation basename : String)
      (observerElev maxDistance : Rat) (useCurvature : Bool) (env : Env)
      (points : List InputPoint),
      createsTracked (tmpMapsList pid) []
        (viewshedMain pid elevation basename observerElev maxDistance
          useCurvature env points).trace = true := by
  intro pid elevation basename observerElev maxDistance useCurvature env points
  show createsTracked (tmpMapsList pid) []
    (points.foldl (processPoint pid basename env)
      { tmpMaps := tmpMapsList pid
        trace := (tmpMapsList pid).map Event.append
        records := [] }).trace = true
  rw [foldl_processPoint_trace]
  rw [createsTracked_split (tmpMapsList pid) ((tmpMapsList pid).map Event.append)
    ((points.map (pointEvents pid basename env)).flatten) []]
  rw [createsTracked_appends, appendedAfter_appends]
  rw [Bool.true_and]
  refine createsTracked_of_subset (tmpMapsList pid) _ _ ?_ ?_
  · intro n hn
    obtain ⟨l, hl, hnl⟩ := List.mem_flatten.mp hn
    obtain ⟨pt, hpt, hpe⟩ := List.mem_map.mp hl
    rw [← hpe] at hnl
    exact pointEvents_no_append pid basename env pt n hnl
  · intro n hn
    rw [List.append_nil, List.mem_reverse]
    exact hn

/-- C10: in the complete module, every attribute record written to the
output map stems from an input point, its visible point count equals the
point count of the spatial-selection result minus one, and its distance
to the closest visible point is zero whenever the visible point count is
less than one. -/
theorem C10_output_record_fields :
    ∀ (pid : Nat) (elevation basename : String)
      (observerElev maxDistance : Rat) (useCurvature : Bool) (env : Env)
      (points : List InputPoint) (r : PointRecord),
      r ∈ (viewshedMain pid elevation basename observerElev maxDistance
        useCurvature env points).records →
      (∃ pt, pt ∈ points ∧ r = pointRecord env pt ∧
        r.n_points_visible = (env.selectCount pt.cat : Int) - 1) ∧
      (r.n_points_visible < 1 → r.distance_to_closest = 0) := by
  intro pid elevation basename observerElev maxDistance useCurvature env points r hr
  have hrecords : (viewshedMain pid elevation basename observerElev maxDistance
      useCurvature env points).records = points.map (pointRecord env) := by
    show (points.foldl (processPoint pid basename env)
      { tmpMaps := tmpMapsList pid
        trace := (tmpMapsList pid).map Event.append
        records := [] }).records = points.map (pointRecord env)
    rw [foldl_processPoint_records]
    rfl
  rw [hrecords] at hr
  obtain ⟨pt, hpt, hpe⟩ := List.mem_map.mp hr
  constructor
  · refine ⟨pt, hpt, hpe.symm, ?_⟩
    rw [← hpe]
    rfl
  · intro hlt
    rw [← hpe] at hlt ⊢
    simp only [pointRecord] at hlt ⊢
    rw [if_neg (by omega)]

/-- Witness for C10 at a concrete run with one input point visible only
to itself: the record has zero visible points and distance zero. -/
theorem C10_output_record_fields_witness :
    ((∃ pt, pt ∈ [wPt] ∧ pointRecord wEnv wPt = pointRecord wEnv pt ∧
      (pointRecord wEnv wPt).n_points_visible = (wEnv.selectCount pt.cat : Int) - 1) ∧
    ((pointRecord wEnv wPt).n_points_visible < 1 →
      (pointRecord wEnv wPt).distance_to_closest = 0)) :=
  C10_output_record_fields 1 "elevation" "viewshed" 1 (-1) true wEnv [wPt]
    (pointRecord wEnv wPt)
    (by simp [viewshedMain, processPoint])
